import Mathlib

/-!
Shallow embedding of `src/utils/MasterFisher.ts` (the MasterFisher resolver of
the SUSHI compiler).  The three catalogs (Package, FSHTank, FHIRDefinitions)
are external collaborators: they are modelled as records of abstract lookup
functions, exactly the capability surface `MasterFisher` consumes.  The
resolver logic itself (priority ordering, alias resolution, metadata repair,
parent-chain walk with cycle detection, deduplication) is translated line by
line from the TypeScript source.

Modelling conventions:
* TypeScript `undefined`/absent values become `Option`.
* JavaScript falsiness of `string | undefined` (`!x`) becomes `isFalsy`:
  true exactly for `none` and the empty string.
* Template-literal interpolation of a possibly-undefined string becomes
  `optStr` (JS renders `undefined` as the string "undefined").
* The unguarded property accesses `this.fhir.fishForPredefinedResource…`
  and `this.pkg.config.canonical` throw a `TypeError` at runtime when the
  receiver is `undefined`; this is modelled with `Except Err`.
* The unbounded `while` loop of `findSdType` and the recursion
  `fixMetadata → fishForMetadata` are modelled with an explicit fuel
  parameter; exhaustion is `Err.outOfFuel`.
* `logger.error(message, sourceInfo)` is modelled by returning the list of
  emitted `LogEntry` values alongside each result.
-/

namespace MasterFisherSpec

/-- FHIR entity types (`Type` in `Fishable.ts`); kept abstract as strings. -/
abbrev FType := String

/-- Raw definition content returned by `fishForFHIR`-style lookups; opaque to
the resolver, so modelled as an uninterpreted string (distinct strings are
distinct contents). -/
abbrev RawDef := String

/-- JavaScript falsiness of a `string | undefined` value (`!x`). -/
def isFalsy : Option String → Bool
  | none => true
  | some s => s == ""

/-- JavaScript template-literal rendering of a `string | undefined` value. -/
def optStr : Option String → String
  | none => "undefined"
  | some s => s

/-- The normalized `Metadata` record of `Fishable.ts`, restricted to the
fields `MasterFisher` reads or writes. -/
structure Metadata where
  id : String
  name : String
  url : Option String := none
  parent : Option String := none
  sdType : Option String := none
  resourceType : Option String := none
  instanceUsage : Option String := none
deriving DecidableEq, Repr

/-- A FSH entity as returned by `FSHTank.fish`/`fishAll`: the fields
`MasterFisher` inspects (`id`, `name`, `instanceof Instance`, `instanceOf`,
`sourceInfo`). -/
structure FshEntity where
  id : String
  name : String
  isInstance : Bool := false
  instanceOf : String := ""
  sourceInfo : Option String := none
deriving DecidableEq, Repr

/-- One `logger.error` emission: the message and the optional source info. -/
structure LogEntry where
  message : String
  sourceInfo : Option String := none
deriving DecidableEq, Repr

/-- Failure modes of the embedding: `typeError` models the JavaScript
`TypeError` thrown by an unguarded property access on `undefined`;
`outOfFuel` models exhaustion of the explicit recursion bound. -/
inductive Err where
  | typeError
  | outOfFuel
deriving DecidableEq, Repr

/-- The capability surface of `FSHTank` consumed by `MasterFisher`. -/
structure FSHTank where
  resolveAlias : String → Option String
  fish : String → List FType → Option FshEntity
  fishForMetadata : String → List FType → Option Metadata
  fishForMetadatas : String → List FType → List Metadata
  fishAll : String → List FType → List FshEntity

/-- The capability surface of `FHIRDefinitions` consumed by `MasterFisher`. -/
structure FHIRDefinitions where
  fishForPredefinedResource : String → List FType → Option RawDef
  fishForPredefinedResourceMetadata : String → List FType → Option Metadata
  fishForPredefinedResourceMetadatas : String → List FType → List Metadata
  fishForFHIR : String → List FType → Option RawDef
  fishForMetadata : String → List FType → Option Metadata
  fishForMetadatas : String → List FType → List Metadata

/-- The capability surface of `Package` consumed by `MasterFisher`
(`config.canonical` is flattened into the field `canonical`). -/
structure Package where
  fishForFHIR : String → List FType → Option RawDef
  fishForMetadata : String → List FType → Option Metadata
  fishForMetadatas : String → List FType → List Metadata
  canonical : String

/-- An element of the `fishables` array `[this.pkg, this.tank, this.fhir]`,
tagged by its origin so that the `fishable instanceof FSHTank` test can be
expressed. -/
inductive FishableEntry where
  | pkg (p : Package)
  | tank (t : FSHTank)
  | fhir (f : FHIRDefinitions)

/-- `fishable.fishForMetadata(item, ...types)` on a tagged entry. -/
def FishableEntry.fishForMetadata : FishableEntry → String → List FType → Option Metadata
  | .pkg p, item, types => p.fishForMetadata item types
  | .tank t, item, types => t.fishForMetadata item types
  | .fhir f, item, types => f.fishForMetadata item types

/-- `fishable.fishForMetadatas(item, ...types)` on a tagged entry. -/
def FishableEntry.fishForMetadatas : FishableEntry → String → List FType → List Metadata
  | .pkg p, item, types => p.fishForMetadatas item types
  | .tank t, item, types => t.fishForMetadatas item types
  | .fhir f, item, types => f.fishForMetadatas item types

/-- The `fishable instanceof FSHTank` test. -/
def FishableEntry.isTank : FishableEntry → Bool
  | .tank _ => true
  | _ => false

/-- The `MasterFisher` state: its three optional catalogs
(`tank?`, `fhir?`, `pkg?`). -/
structure MasterFisher where
  tank : Option FSHTank := none
  fhir : Option FHIRDefinitions := none
  pkg : Option Package := none

/-- `item = this.tank?.resolveAlias(item) ?? item`. -/
def MasterFisher.resolveItem (mf : MasterFisher) (item : String) : String :=
  ((mf.tank.bind fun t => t.resolveAlias item)).getD item

/-- `[this.pkg, this.tank, this.fhir].filter(f => f != null)`. -/
def MasterFisher.fishables (mf : MasterFisher) : List FishableEntry :=
  (mf.pkg.map FishableEntry.pkg).toList ++ (mf.tank.map FishableEntry.tank).toList
    ++ (mf.fhir.map FishableEntry.fhir).toList

/-- `fishForFHIR` of `MasterFisher`: fast path, then package, then the
tank-existence guard, then the external FHIR definitions. -/
def MasterFisher.fishForFHIR (mf : MasterFisher) (item : String) (types : List FType) :
    Except Err (Option RawDef) :=
  let item := mf.resolveItem item
  match mf.fhir with
  | none => .error Err.typeError
  | some fhir =>
    match fhir.fishForPredefinedResource item types with
    | some r => .ok (some r)
    | none =>
      match mf.pkg.bind fun p => p.fishForFHIR item types with
      | some r => .ok (some r)
      | none =>
        if (mf.tank.bind fun t => t.fish item types).isSome then .ok none
        else .ok (fhir.fishForFHIR item types)

/-- The log entry built in the cycle branch of `findSdType`: the message
listing the whole chain (oldest to newest), the optional hint when a FHIR
definition matches the offending parent by name or id, and the source info of
the tank entity when the matching fishable was the tank. -/
def mkCycleLog (mf : MasterFisher) (history : List Metadata) (parentResult : Metadata)
    (e : FishableEntry) (parent : String) : LogEntry :=
  let message := "Circular dependency detected on parent relationships: " ++
    String.intercalate " < " ((history ++ [parentResult]).map Metadata.name)
  let fhirMeta := ((mf.fhir.bind fun f => f.fishForMetadata parentResult.name [])).or
    (mf.fhir.bind fun f => f.fishForMetadata parentResult.id [])
  let message := match fhirMeta with
    | some fm => message ++ "\n  If the parent " ++ parentResult.name ++
        " is intended to refer to the FHIR resource, use its URL: " ++ optStr fm.url
    | none => message
  let srcInfo := match e with
    | .tank t => (t.fish parent []).bind FshEntity.sourceInfo
    | _ => none
  ⟨message, srcInfo⟩

/-- Result of one pass of the inner `for (const fishable of fishables)` loop of
`findSdType`: a detected cycle (with the emitted log), a matched parent, or no
match in any fishable. -/
inductive ParentLookup where
  | cycle (log : LogEntry)
  | found (m : Metadata)
  | nomatch

/-- The inner `for` loop of `findSdType`: find the first fishable with
metadata for `parent`; on a match, detect a cycle by comparing its `url`
against the urls already in `history` (JavaScript `===`, so two `undefined`
urls compare equal). -/
def findParent (mf : MasterFisher) (history : List Metadata) (parent : String)
    (types : List FType) : List FishableEntry → ParentLookup
  | [] => .nomatch
  | e :: rest =>
    match e.fishForMetadata parent types with
    | none => findParent mf history parent types rest
    | some parentResult =>
      if history.any fun md => md.url == parentResult.url then
        .cycle (mkCycleLog mf history parentResult e parent)
      else .found parentResult

/-- The `while (sdType == null && parent != null)` loop of `findSdType`,
with explicit fuel.  On a cycle: log and return `undefined`.  On no match:
`[sdType, parent]` becomes `[undefined, undefined]`, so the loop exits and
returns `undefined`.  Otherwise push to history and continue with the
match's `sdType`/`parent`. -/
def findSdTypeLoop (mf : MasterFisher) (types : List FType) (fishables : List FishableEntry) :
    Nat → List Metadata → Option String → Option String →
    Except Err (Option String × List LogEntry)
  | fuel, history, sdType, parentOpt =>
    match sdType, parentOpt with
    | none, some parent0 =>
      match fuel with
      | 0 => .error Err.outOfFuel
      | n + 1 =>
        let parent := ((mf.tank.bind fun t => t.resolveAlias parent0)).getD parent0
        match findParent mf history parent types fishables with
        | .cycle log => .ok (none, [log])
        | .found pr => findSdTypeLoop mf types fishables n (history ++ [pr]) pr.sdType pr.parent
        | .nomatch => .ok (none, [])
    | _, _ => .ok (sdType, [])

/-- `findSdType(meta, types, fishables)`: seed the history with the starting
record and run the walk. -/
def findSdTypeFuel (mf : MasterFisher) (fuel : Nat) (meta : Metadata) (types : List FType)
    (fishables : List FishableEntry) : Except Err (Option String × List LogEntry) :=
  findSdTypeLoop mf types fishables fuel [meta] meta.sdType meta.parent

/-- The URL-synthesis half of `fixMetadata`:
`if (!metadata.url && metadata.instanceUsage !== 'Inline')` then
`metadata.url = pkg.config.canonical + '/' + resourceType + '/' + id`
(the unguarded `this.pkg` access throws when the package is absent). -/
def synthesizeUrl (mf : MasterFisher) (metadata : Metadata) : Except Err Metadata :=
  if isFalsy metadata.url && !(metadata.instanceUsage == some "Inline") then
    match mf.pkg with
    | none => .error Err.typeError
    | some p =>
      .ok { metadata with
            url := some (p.canonical ++ "/" ++ optStr metadata.resourceType ++ "/" ++ metadata.id) }
  else .ok metadata

/-- The type of the recursive `this.fishForMetadata` callback used by the
resource-type backfill of `fixMetadata` (the embedding threads the fuel-bounded
recursion through this parameter). -/
abbrev RecFish := String → List FType → Except Err (Option Metadata × List LogEntry)

/-- `fixMetadata`: for a tank-origin match, derive `sdType` by the
parent-chain walk and backfill `resourceType` for instances (via the
recursive `this.fishForMetadata(fshDefinition.instanceOf)` call, passed as
the `recFish` callback); for every origin, synthesize the url afterwards. -/
def fixMetadataGo (mf : MasterFisher) (fuel : Nat) (recFish : RecFish) (metadata : Metadata)
    (item : String) (types : List FType) (e : FishableEntry) (all : List FishableEntry) :
    Except Err (Metadata × List LogEntry) :=
  match e with
  | .tank t =>
    match findSdTypeFuel mf fuel metadata types all with
    | .error err => .error err
    | .ok (sd, logs1) =>
      let md1 := { metadata with sdType := sd }
      let backfill : Except Err (Metadata × List LogEntry) :=
        if isFalsy md1.resourceType then
          match (t.fishAll item types).find? fun en => en.id == md1.id && en.name == md1.name with
          | some fsh =>
            if fsh.isInstance then
              match recFish fsh.instanceOf [] with
              | .error err => .error err
              | .ok (r, logs2) => .ok ({ md1 with resourceType := r.bind Metadata.sdType }, logs2)
            else .ok (md1, [])
          | none => .ok (md1, [])
        else .ok (md1, [])
      match backfill with
      | .error err => .error err
      | .ok (md2, logs2) =>
        match synthesizeUrl mf md2 with
        | .error err => .error err
        | .ok md3 => .ok (md3, logs1 ++ logs2)
  | _ =>
    match synthesizeUrl mf metadata with
    | .error err => .error err
    | .ok md => .ok (md, [])

/-- The `for (const fishable of fishables)` loop of `fishForMetadata`:
return the repaired first match, or `undefined` when no fishable matches. -/
def fishableLoopGo (mf : MasterFisher) (fuel : Nat) (recFish : RecFish) (item : String)
    (types : List FType) : List FishableEntry → (all : List FishableEntry) →
    Except Err (Option Metadata × List LogEntry)
  | [], _ => .ok (none, [])
  | e :: rest, all =>
    match e.fishForMetadata item types with
    | some r =>
      match fixMetadataGo mf fuel recFish r item types e all with
      | .error err => .error err
      | .ok (m, logs) => .ok (some m, logs)
    | none => fishableLoopGo mf fuel recFish item types rest all

/-- The body of `fishForMetadata` of `MasterFisher`: alias resolution, the
unguarded fast-path metadata lookup, then the first match over
`[pkg, tank, fhir].filter(≠ null)` repaired by `fixMetadata`. -/
def fishMetaBody (mf : MasterFisher) (fuel : Nat) (recFish : RecFish) (item : String)
    (types : List FType) : Except Err (Option Metadata × List LogEntry) :=
  let item := mf.resolveItem item
  match mf.fhir with
  | none => .error Err.typeError
  | some fhir =>
    match fhir.fishForPredefinedResourceMetadata item types with
    | some r => .ok (some r, [])
    | none => fishableLoopGo mf fuel recFish item types mf.fishables mf.fishables

/-- `fishForMetadata` of `MasterFisher`, with fuel bounding the depth of the
`fixMetadata → fishForMetadata` recursion (each nested call costs one unit). -/
def fishForMetadataFuel (mf : MasterFisher) : Nat → String → List FType →
    Except Err (Option Metadata × List LogEntry)
  | 0, item, types => fishMetaBody mf 0 (fun _ _ => .error Err.outOfFuel) item types
  | n + 1, item, types => fishMetaBody mf (n + 1) (fishForMetadataFuel mf n) item types

/-- The recursion callback corresponding to a given fuel level. -/
def recFishOf (mf : MasterFisher) : Nat → RecFish
  | 0 => fun _ _ => .error Err.outOfFuel
  | n + 1 => fishForMetadataFuel mf n

theorem fishForMetadataFuel_eq (mf : MasterFisher) (fuel : Nat) (item : String)
    (types : List FType) :
    fishForMetadataFuel mf fuel item types = fishMetaBody mf fuel (recFishOf mf fuel) item types := by
  cases fuel <;> rfl

/-- Repair every metadata in a list with `fixMetadata`
(the `.map(result => this.fixMetadata(...))` of `fishForMetadatas`),
accumulating the emitted logs. -/
def fixAllFuel (mf : MasterFisher) (fuel : Nat) (item : String) (types : List FType)
    (e : FishableEntry) (all : List FishableEntry) :
    List Metadata → Except Err (List Metadata × List LogEntry)
  | [] => .ok ([], [])
  | m :: rest =>
    match fixMetadataGo mf fuel (recFishOf mf fuel) m item types e all with
    | .error err => .error err
    | .ok (m1, logs1) =>
      match fixAllFuel mf fuel item types e all rest with
      | .error err => .error err
      | .ok (ms, logs2) => .ok (m1 :: ms, logs1 ++ logs2)

/-- The gathering loop of `fishForMetadatas`: for each fishable in order,
repair its full-search matches and append them. -/
def gatherLoop (mf : MasterFisher) (fuel : Nat) (item : String) (types : List FType)
    (all : List FishableEntry) : List FishableEntry → Except Err (List Metadata × List LogEntry)
  | [] => .ok ([], [])
  | e :: rest =>
    match fixAllFuel mf fuel item types e all (e.fishForMetadatas item types) with
    | .error err => .error err
    | .ok (ms1, logs1) =>
      match gatherLoop mf fuel item types all rest with
      | .error err => .error err
      | .ok (ms2, logs2) => .ok (ms1 ++ ms2, logs1 ++ logs2)

/-- The gathered (pre-deduplication) sequence of `fishForMetadatas`: all
fast-path matches (unrepaired), then the repaired full-search matches of
package, tank and FHIR definitions in that order. -/
def gatherMetadatasFuel (mf : MasterFisher) (fuel : Nat) (item : String) (types : List FType) :
    Except Err (List Metadata × List LogEntry) :=
  let item := mf.resolveItem item
  match mf.fhir with
  | none => .error Err.typeError
  | some fhir =>
    match gatherLoop mf fuel item types mf.fishables mf.fishables with
    | .error err => .error err
    | .ok (ms, logs) => .ok (fhir.fishForPredefinedResourceMetadatas item types ++ ms, logs)

/-- Worker for lodash `uniqWith(l, isEqual)`: walk the list keeping a record
iff no structurally-equal record has been kept before (`seen` is the list of
records kept so far). -/
def uniqWithGo : List Metadata → List Metadata → List Metadata
  | _, [] => []
  | seen, m :: rest =>
    if seen.any fun x => x == m then uniqWithGo seen rest
    else m :: uniqWithGo (seen ++ [m]) rest

/-- lodash `uniqWith(l, isEqual)`: keep the first occurrence of each
structurally-equal class of records, preserving order. -/
def uniqWith (l : List Metadata) : List Metadata := uniqWithGo [] l

/-- `fishForMetadatas` of `MasterFisher`: the gathered sequence,
deduplicated by full structural equality. -/
def fishForMetadatasFuel (mf : MasterFisher) (fuel : Nat) (item : String) (types : List FType) :
    Except Err (List Metadata × List LogEntry) :=
  match gatherMetadatasFuel mf fuel item types with
  | .error err => .error err
  | .ok (ms, logs) => .ok (uniqWith ms, logs)

/-! ### Concrete fixtures used by the witness theorems -/

/-- A tank whose every lookup is empty. -/
def emptyTank : FSHTank where
  resolveAlias := fun _ => none
  fish := fun _ _ => none
  fishForMetadata := fun _ _ => none
  fishForMetadatas := fun _ _ => []
  fishAll := fun _ _ => []

/-- FHIR definitions whose every lookup is empty. -/
def emptyFhir : FHIRDefinitions where
  fishForPredefinedResource := fun _ _ => none
  fishForPredefinedResourceMetadata := fun _ _ => none
  fishForPredefinedResourceMetadatas := fun _ _ => []
  fishForFHIR := fun _ _ => none
  fishForMetadata := fun _ _ => none
  fishForMetadatas := fun _ _ => []

/-- A package whose every lookup is empty, with the given canonical base. -/
def emptyPkg (canonical : String) : Package where
  fishForFHIR := fun _ _ => none
  fishForMetadata := fun _ _ => none
  fishForMetadatas := fun _ _ => []
  canonical := canonical

/-! ### Claims -/

/-- Claim C1: if the fast-path index has no match and the package has no
match but the tank contains a matching definition, `fishForFHIR` returns
`undefined` instead of falling through to the same-named FHIR definition. -/
theorem c1_tank_blocks_fhir_fallthrough (mf : MasterFisher) (f : FHIRDefinitions)
    (item : String) (types : List FType) (d : RawDef)
    (hf : mf.fhir = some f)
    (hfast : f.fishForPredefinedResource (mf.resolveItem item) types = none)
    (hpkg : (mf.pkg.bind fun p => p.fishForFHIR (mf.resolveItem item) types) = none)
    (htank : (mf.tank.bind fun t => t.fish (mf.resolveItem item) types).isSome = true)
    (hfhir : f.fishForFHIR (mf.resolveItem item) types = some d) :
    mf.fishForFHIR item types = .ok none := by
  unfold MasterFisher.fishForFHIR
  simp only [hf, hfast, hpkg, htank, if_pos]

/-- Witness for C1: a concrete tank containing "X" and concrete FHIR
definitions also containing "X". -/
def tankC1 : FSHTank :=
  { emptyTank with fish := fun item _ => if item == "X" then some ⟨"X", "X", false, "", none⟩ else none }

/-- Witness fixture for C1: FHIR definitions with a same-named definition. -/
def fhirC1 : FHIRDefinitions :=
  { emptyFhir with fishForFHIR := fun item _ => if item == "X" then some "external-X" else none }

/-- Witness fixture for C1: the master fisher. -/
def mfC1 : MasterFisher := { tank := some tankC1, fhir := some fhirC1, pkg := none }

/-- Witness for claim C1 at a concrete input. -/
theorem c1_witness : mfC1.fishForFHIR "X" [] = .ok none :=
  c1_tank_blocks_fhir_fallthrough mfC1 fhirC1 "X" [] "external-X" rfl rfl rfl rfl rfl

/-- Claim C2: an identifier present in both package and FHIR definitions with
different content (and not matched by the fast path) resolves to the package
content, for both `fishForFHIR` and `fishForMetadata`. -/
theorem c2_pkg_beats_fhir (mf : MasterFisher) (f : FHIRDefinitions) (p : Package)
    (item : String) (types : List FType) (d1 d2 : RawDef) (m1 m2 : Metadata) (fuel : Nat)
    (hf : mf.fhir = some f) (hp : mf.pkg = some p)
    (hfast : f.fishForPredefinedResource (mf.resolveItem item) types = none)
    (hfastm : f.fishForPredefinedResourceMetadata (mf.resolveItem item) types = none)
    (hpkgd : p.fishForFHIR (mf.resolveItem item) types = some d1)
    (hfhird : f.fishForFHIR (mf.resolveItem item) types = some d2)
    (hdne : d1 ≠ d2)
    (hpkgm : p.fishForMetadata (mf.resolveItem item) types = some m1)
    (hfhirm : f.fishForMetadata (mf.resolveItem item) types = some m2)
    (hmne : m1 ≠ m2)
    (hurl : isFalsy m1.url = false) :
    mf.fishForFHIR item types = .ok (some d1) ∧
    fishForMetadataFuel mf fuel item types = .ok (some m1, []) := by
  constructor
  · simp [MasterFisher.fishForFHIR, hf, hfast, hp, hpkgd]
  · rw [fishForMetadataFuel_eq]
    simp [fishMetaBody, MasterFisher.fishables, fishableLoopGo, fixMetadataGo,
      synthesizeUrl, FishableEntry.fishForMetadata, hf, hp, hfast, hfastm, hpkgm, hurl]

/-- Witness fixture for C2: the package content for "X". -/
def m1C2 : Metadata := { id := "X", name := "X", url := some "http://pkg/X" }

/-- Witness fixture for C2: the FHIR content for "X". -/
def m2C2 : Metadata := { id := "X", name := "X", url := some "http://hl7.org/X" }

/-- Witness fixture for C2: the package. -/
def pkgC2 : Package :=
  { emptyPkg "http://pkg" with
    fishForFHIR := fun item _ => if item == "X" then some "pkg-X" else none
    fishForMetadata := fun item _ => if item == "X" then some m1C2 else none }

/-- Witness fixture for C2: the FHIR definitions. -/
def fhirC2 : FHIRDefinitions :=
  { emptyFhir with
    fishForFHIR := fun item _ => if item == "X" then some "fhir-X" else none
    fishForMetadata := fun item _ => if item == "X" then some m2C2 else none }

/-- Witness fixture for C2: the master fisher. -/
def mfC2 : MasterFisher := { tank := none, fhir := some fhirC2, pkg := some pkgC2 }

/-- Witness for claim C2 at a concrete input. -/
theorem c2_witness :
    mfC2.fishForFHIR "X" [] = .ok (some "pkg-X") ∧
    fishForMetadataFuel mfC2 0 "X" [] = .ok (some m1C2, []) :=
  c2_pkg_beats_fhir mfC2 fhirC2 pkgC2 "X" [] "pkg-X" "fhir-X" m1C2 m2C2 0
    rfl rfl rfl rfl rfl rfl (by decide) rfl rfl (by decide) rfl

/-- Claim C7: a fast-path (predefined-resource) match is returned immediately
by both `fishForFHIR` and `fishForMetadata`, before the package is consulted,
even when the package holds a same-named definition; the fast-path metadata is
returned unrepaired and without diagnostics. -/
theorem c7_fastpath_first (mf : MasterFisher) (f : FHIRDefinitions) (p : Package)
    (item : String) (types : List FType) (r d : RawDef) (m mPkg : Metadata) (fuel : Nat)
    (hf : mf.fhir = some f) (hp : mf.pkg = some p)
    (hfast : f.fishForPredefinedResource (mf.resolveItem item) types = some r)
    (hfastm : f.fishForPredefinedResourceMetadata (mf.resolveItem item) types = some m)
    (hpkgd : p.fishForFHIR (mf.resolveItem item) types = some d)
    (hpkgm : p.fishForMetadata (mf.resolveItem item) types = some mPkg) :
    mf.fishForFHIR item types = .ok (some r) ∧
    fishForMetadataFuel mf fuel item types = .ok (some m, []) := by
  constructor
  · unfold MasterFisher.fishForFHIR
    simp only [hf, hfast]
  · rw [fishForMetadataFuel_eq]
    unfold fishMetaBody
    simp only [hf, hfastm]

/-- Witness fixture for C7: fast-path content. -/
def mC7 : Metadata := { id := "Patient", name := "Patient", url := some "http://hl7.org/Patient" }

/-- Witness fixture for C7: package content of the same name. -/
def mPkgC7 : Metadata := { id := "Patient", name := "Patient", url := some "http://pkg/Patient" }

/-- Witness fixture for C7: the FHIR definitions with a fast-path match. -/
def fhirC7 : FHIRDefinitions :=
  { emptyFhir with
    fishForPredefinedResource := fun item _ => if item == "Patient" then some "predef-Patient" else none
    fishForPredefinedResourceMetadata := fun item _ => if item == "Patient" then some mC7 else none }

/-- Witness fixture for C7: the package with a same-named definition. -/
def pkgC7 : Package :=
  { emptyPkg "http://pkg" with
    fishForFHIR := fun item _ => if item == "Patient" then some "pkg-Patient" else none
    fishForMetadata := fun item _ => if item == "Patient" then some mPkgC7 else none }

/-- Witness fixture for C7: the master fisher. -/
def mfC7 : MasterFisher := { tank := none, fhir := some fhirC7, pkg := some pkgC7 }

/-- Witness for claim C7 at a concrete input. -/
theorem c7_witness :
    mfC7.fishForFHIR "Patient" [] = .ok (some "predef-Patient") ∧
    fishForMetadataFuel mfC7 0 "Patient" [] = .ok (some mC7, []) :=
  c7_fastpath_first mfC7 fhirC7 pkgC7 "Patient" [] "predef-Patient" "pkg-Patient" mC7 mPkgC7 0
    rfl rfl rfl rfl rfl rfl

/-- Claim C9: when the resolver is constructed without FHIR definitions,
every call to `fishForFHIR`, `fishForMetadata` and `fishForMetadatas` throws
at the unguarded fast-path dereference, even for identifiers resolvable from
the package or the tank. -/
theorem c9_missing_fhir_throws (mf : MasterFisher) (item : String) (types : List FType)
    (fuel : Nat) (h : mf.fhir = none) :
    mf.fishForFHIR item types = .error Err.typeError ∧
    fishForMetadataFuel mf fuel item types = .error Err.typeError ∧
    fishForMetadatasFuel mf fuel item types = .error Err.typeError := by
  refine ⟨?_, ?_, ?_⟩
  · unfold MasterFisher.fishForFHIR
    simp only [h]
  · rw [fishForMetadataFuel_eq]
    unfold fishMetaBody
    simp only [h]
  · unfold fishForMetadatasFuel gatherMetadatasFuel
    simp only [h]

/-- Witness fixture for C9: a package that can resolve "X". -/
def pkgC9 : Package :=
  { emptyPkg "http://pkg" with
    fishForFHIR := fun item _ => if item == "X" then some "pkg-X" else none
    fishForMetadata := fun item _ =>
      if item == "X" then some { id := "X", name := "X", url := some "u" } else none }

/-- Witness fixture for C9: a master fisher with no FHIR definitions. -/
def mfC9 : MasterFisher := { tank := none, fhir := none, pkg := some pkgC9 }

/-- Witness for claim C9 at a concrete input resolvable from the package. -/
theorem c9_witness :
    mfC9.fishForFHIR "X" [] = .error Err.typeError ∧
    fishForMetadataFuel mfC9 5 "X" [] = .error Err.typeError ∧
    fishForMetadatasFuel mfC9 5 "X" [] = .error Err.typeError :=
  c9_missing_fhir_throws mfC9 "X" [] 5 rfl

/-- Helper: whatever `synthesizeUrl` returns successfully differs from its
input at most in the `url` field. -/
theorem synthesizeUrl_ok (mf : MasterFisher) (md md' : Metadata)
    (h : synthesizeUrl mf md = .ok md') : md' = { md with url := md'.url } := by
  unfold synthesizeUrl at h
  split at h
  · cases hp : mf.pkg with
    | none => rw [hp] at h; cases h
    | some p => rw [hp] at h; cases h; rfl
  · cases h; rfl

/-- Claim C5 counterexample: a record whose `url` is present as the empty
string is nevertheless overwritten by URL synthesis (JavaScript `!url` treats
the empty string as absent). -/
def mdC5 : Metadata := { id := "123", name := "P", url := some "", resourceType := some "Patient" }

/-- Counterexample fixture for C5: the package with the canonical base. -/
def pkgC5 : Package := emptyPkg "http://example.org"

/-- Counterexample fixture for C5: the master fisher. -/
def mfC5 : MasterFisher := { tank := none, fhir := none, pkg := some pkgC5 }

/-- Counterexample for claim C5 as stated: `mdC5.url` is present (the empty
string), yet the repair step replaces it. -/
theorem c5_counterexample :
    mdC5.url = some "" ∧
    fixMetadataGo mfC5 0 (recFishOf mfC5 0) mdC5 "123" [] (FishableEntry.pkg pkgC5) [] =
      .ok ({ mdC5 with url := some "http://example.org/Patient/123" }, []) ∧
    (some "http://example.org/Patient/123" : Option String) ≠ mdC5.url :=
  ⟨rfl, rfl, by decide⟩

/-- Claim C5 (amended): in the repair step of a non-tank-origin match, an
absent `url` with `instanceUsage` other than `Inline` is synthesized as
canonical base `/` resourceType `/` id; an `Inline` record gets no url; and a
url already present as a non-empty string is never overwritten (a present but
empty-string url is treated as absent, as the counterexample shows). -/
theorem c5_url_synthesis (mf : MasterFisher) (p : Package) (md : Metadata) (item : String)
    (types : List FType) (e : FishableEntry) (all : List FishableEntry) (fuel : Nat)
    (rf : RecFish) (hp : mf.pkg = some p) (he : e.isTank = false) :
    (md.url = none → md.instanceUsage ≠ some "Inline" →
      fixMetadataGo mf fuel rf md item types e all =
        .ok ({ md with
               url := some (p.canonical ++ "/" ++ optStr md.resourceType ++ "/" ++ md.id) }, []))
    ∧ (md.url = none → md.instanceUsage = some "Inline" →
      fixMetadataGo mf fuel rf md item types e all = .ok (md, []))
    ∧ (∀ u, md.url = some u → u ≠ "" →
      fixMetadataGo mf fuel rf md item types e all = .ok (md, [])) := by
  cases e with
  | tank t => simp [FishableEntry.isTank] at he
  | pkg q =>
    refine ⟨fun h1 h2 => ?_, fun h1 h2 => ?_, fun u h1 h2 => ?_⟩ <;>
      simp [fixMetadataGo, synthesizeUrl, isFalsy, h1, h2, hp]
  | fhir g =>
    refine ⟨fun h1 h2 => ?_, fun h1 h2 => ?_, fun u h1 h2 => ?_⟩ <;>
      simp [fixMetadataGo, synthesizeUrl, isFalsy, h1, h2, hp]

/-- Witness fixture for C5: the record of the spec's example
(`resourceType="Patient"`, `id="123"`, no url). -/
def mdC5w : Metadata := { id := "123", name := "P", resourceType := some "Patient" }

/-- Witness for the amended claim C5 at the spec's concrete example:
the synthesized url is exactly "http://example.org/Patient/123", and the same
record with `instanceUsage = "Inline"` keeps no url. -/
theorem c5_witness :
    fixMetadataGo mfC5 0 (recFishOf mfC5 0) mdC5w "123" [] (FishableEntry.pkg pkgC5) [] =
      .ok ({ mdC5w with url := some "http://example.org/Patient/123" }, []) ∧
    fixMetadataGo mfC5 0 (recFishOf mfC5 0) { mdC5w with instanceUsage := some "Inline" }
        "123" [] (FishableEntry.pkg pkgC5) [] =
      .ok ({ mdC5w with instanceUsage := some "Inline" }, []) := by
  constructor
  · exact (c5_url_synthesis mfC5 pkgC5 mdC5w "123" [] (FishableEntry.pkg pkgC5) [] 0
      (recFishOf mfC5 0) rfl rfl).1 rfl (by decide)
  · exact (c5_url_synthesis mfC5 pkgC5 { mdC5w with instanceUsage := some "Inline" } "123" []
      (FishableEntry.pkg pkgC5) [] 0 (recFishOf mfC5 0) rfl rfl).2.1 rfl rfl

/-- Claim C8: a match whose origin is the package or the FHIR definitions is
changed by the repair step in no field except `url`, and no diagnostic is
emitted; `sdType` derivation and resource-type backfill apply only to
tank-origin matches. -/
theorem c8_non_tank_frame (mf : MasterFisher) (md : Metadata) (item : String)
    (types : List FType) (e : FishableEntry) (all : List FishableEntry) (fuel : Nat)
    (rf : RecFish) (m' : Metadata) (logs : List LogEntry)
    (he : e.isTank = false)
    (h : fixMetadataGo mf fuel rf md item types e all = .ok (m', logs)) :
    logs = [] ∧ m' = { md with url := m'.url } := by
  cases e with
  | tank t => simp [FishableEntry.isTank] at he
  | pkg q =>
    unfold fixMetadataGo at h
    cases hs : synthesizeUrl mf md with
    | error err => rw [hs] at h; cases h
    | ok md3 =>
      rw [hs] at h
      cases h
      exact ⟨rfl, synthesizeUrl_ok mf md m' hs⟩
  | fhir g =>
    unfold fixMetadataGo at h
    cases hs : synthesizeUrl mf md with
    | error err => rw [hs] at h; cases h
    | ok md3 =>
      rw [hs] at h
      cases h
      exact ⟨rfl, synthesizeUrl_ok mf md m' hs⟩

/-- Witness fixture for C8: a package-origin record with no url. -/
def mdC8 : Metadata := { id := "id1", name := "N" }

/-- Witness fixture for C8: the master fisher. -/
def mfC8 : MasterFisher := { tank := none, fhir := none, pkg := some (emptyPkg "http://base") }

/-- Witness fixture for C8: the repaired record (only `url` differs). -/
def mdC8' : Metadata := { mdC8 with url := some "http://base/undefined/id1" }

/-- Witness for claim C8 at a concrete input. -/
theorem c8_witness : ([] : List LogEntry) = [] ∧ mdC8' = { mdC8 with url := mdC8'.url } :=
  c8_non_tank_frame mfC8 mdC8 "id1" [] (FishableEntry.pkg (emptyPkg "http://base")) [] 0
    (recFishOf mfC8 0) mdC8' [] rfl rfl

/-- Claim C10: in the parent-chain walk, a cycle is declared exactly when the
matched parent's `url` equals a visited record's `url` under JavaScript
`===` — so two absent urls compare equal, and a walk whose visited records
both lack a url takes the cycle branch even though the chain (here
`meta → mB` with `mB` terminal) is acyclic; otherwise the walk continues and
returns the terminal `sdType`. -/
theorem c10_cycle_by_url_equality (mf : MasterFisher) (e : FishableEntry) (meta mB : Metadata)
    (types : List FType) (fuel : Nat) (pid tname : String)
    (hfuel : 1 ≤ fuel)
    (hsd : meta.sdType = none) (hpar : meta.parent = some pid)
    (hres : (mf.tank.bind fun t => t.resolveAlias pid) = none)
    (hmatch : e.fishForMetadata pid types = some mB)
    (hBsd : mB.sdType = some tname) (hBpar : mB.parent = none) :
    findSdTypeFuel mf fuel meta types [e] =
      (if meta.url == mB.url then Except.ok (none, [mkCycleLog mf [meta] mB e pid])
       else Except.ok (some tname, [])) := by
  obtain ⟨k, rfl⟩ : ∃ k, fuel = k + 1 := ⟨fuel - 1, by omega⟩
  unfold findSdTypeFuel
  rw [hsd, hpar]
  unfold findSdTypeLoop
  simp only [hres, Option.getD_none, findParent, hmatch, List.any_cons, List.any_nil,
    Bool.or_false]
  by_cases h : (meta.url == mB.url) = true
  · simp only [h, if_true]
  · simp only [Bool.not_eq_true] at h
    simp only [h, Bool.false_eq_true, if_false]
    unfold findSdTypeLoop
    rw [hBsd]

/-- Witness fixture for C10: the starting record, with no url. -/
def metaC10 : Metadata := { id := "A", name := "A", parent := some "B" }

/-- Witness fixture for C10: the terminal parent, also with no url, with a
known `sdType` and no further parent (the chain is acyclic). -/
def mBC10 : Metadata := { id := "B", name := "B", sdType := some "Extension" }

/-- Witness fixture for C10: the package holding the parent. -/
def pkgC10 : Package :=
  { emptyPkg "c" with fishForMetadata := fun item _ => if item == "B" then some mBC10 else none }

/-- Witness fixture for C10: the master fisher. -/
def mfC10 : MasterFisher := { tank := none, fhir := none, pkg := some pkgC10 }

/-- Witness fixture for C10: the fishable entry. -/
def eC10 : FishableEntry := .pkg pkgC10

/-- Witness for claim C10 at a concrete acyclic chain whose two records both
lack a url: the cycle branch is taken and the known terminal `sdType` is
discarded. -/
theorem c10_witness :
    findSdTypeFuel mfC10 1 metaC10 [] [eC10] =
      .ok (none, [mkCycleLog mfC10 [metaC10] mBC10 eC10 "B"]) := by
  have h := c10_cycle_by_url_equality mfC10 eC10 metaC10 mBC10 [] 1 "B" "Extension"
    (by decide) rfl rfl rfl rfl rfl rfl
  simpa [metaC10, mBC10] using h

/-- Claim C3: for a tank-origin chain A→B→A, `fishForMetadata(A)` returns the
record with `sdType` unset together with exactly one diagnostic naming the
full chain "A < B < A" (no exception: the result is `.ok`), and
`fishForMetadatas(A)` continues and still returns the affected record. -/
theorem c3_cycle_diagnostic (t : FSHTank) (f : FHIRDefinitions) (p : Package)
    (mA mB : Metadata) (types : List FType) (fuel : Nat)
    (hfuel : 2 ≤ fuel)
    (hraA : t.resolveAlias "A" = none) (hraB : t.resolveAlias "B" = none)
    (hfast : f.fishForPredefinedResourceMetadata "A" types = none)
    (hpA : p.fishForMetadata "A" types = none)
    (htA : t.fishForMetadata "A" types = some mA)
    (hA1 : mA.sdType = none) (hA2 : mA.parent = some "B") (hA3 : mA.name = "A")
    (hA4 : isFalsy mA.url = false) (hA5 : isFalsy mA.resourceType = false)
    (hpB : p.fishForMetadata "B" types = none)
    (htB : t.fishForMetadata "B" types = some mB)
    (hB1 : mB.sdType = none) (hB2 : mB.parent = some "A") (hB3 : mB.name = "B")
    (hne : (mA.url == mB.url) = false)
    (hhname : f.fishForMetadata "A" [] = none)
    (hhid : f.fishForMetadata mA.id [] = none)
    (hfish : t.fish "A" [] = none)
    (hfastms : f.fishForPredefinedResourceMetadatas "A" types = [])
    (hpms : p.fishForMetadatas "A" types = [])
    (htms : t.fishForMetadatas "A" types = [mA])
    (hfms : f.fishForMetadatas "A" types = []) :
    fishForMetadataFuel ⟨some t, some f, some p⟩ fuel "A" types =
      .ok (some mA,
        [⟨"Circular dependency detected on parent relationships: A < B < A", none⟩]) ∧
    fishForMetadatasFuel ⟨some t, some f, some p⟩ fuel "A" types =
      .ok ([mA],
        [⟨"Circular dependency detected on parent relationships: A < B < A", none⟩]) := by
  obtain ⟨k, rfl⟩ : ∃ k, fuel = k + 2 := ⟨fuel - 2, by omega⟩
  have hAeq : ({ mA with sdType := none } : Metadata) = mA := by rw [← hA1]
  have hlog : mkCycleLog ⟨some t, some f, some p⟩ [mA, mB] mA (FishableEntry.tank t) "A" =
      ⟨"Circular dependency detected on parent relationships: A < B < A", none⟩ := by
    unfold mkCycleLog
    simp [hA3, hB3, hhname, hhid, hfish, Option.or]
    rfl
  have hcycle : findSdTypeFuel ⟨some t, some f, some p⟩ (k + 2) mA types
      [FishableEntry.pkg p, FishableEntry.tank t, FishableEntry.fhir f] =
      .ok (none, [mkCycleLog ⟨some t, some f, some p⟩ [mA, mB] mA (FishableEntry.tank t) "A"]) := by
    unfold findSdTypeFuel
    rw [hA1, hA2]
    simp [findSdTypeLoop, findParent, FishableEntry.fishForMetadata,
      hraA, hraB, hpA, htA, hpB, htB, hB1, hB2, hne]
  have hfix : ∀ rf : RecFish,
      fixMetadataGo ⟨some t, some f, some p⟩ (k + 2) rf mA "A" types (FishableEntry.tank t)
        [FishableEntry.pkg p, FishableEntry.tank t, FishableEntry.fhir f] =
      .ok (mA, [⟨"Circular dependency detected on parent relationships: A < B < A", none⟩]) := by
    intro rf
    unfold fixMetadataGo
    rw [hcycle, hlog]
    simp [hA5, synthesizeUrl, hA4, hAeq]
  constructor
  · rw [fishForMetadataFuel_eq]
    unfold fishMetaBody
    simp [MasterFisher.resolveItem, MasterFisher.fishables, hraA, hfast, fishableLoopGo,
      FishableEntry.fishForMetadata, hpA, htA,
      hfix (recFishOf ⟨some t, some f, some p⟩ (k + 2))]
  · unfold fishForMetadatasFuel gatherMetadatasFuel
    simp [MasterFisher.resolveItem, MasterFisher.fishables, hraA, gatherLoop, fixAllFuel,
      FishableEntry.fishForMetadatas, hpms, htms, hfms, hfastms, uniqWith, uniqWithGo,
      hfix (recFishOf ⟨some t, some f, some p⟩ (k + 2))]

/-- Witness fixture for C3: record A with parent B. -/
def mAC3 : Metadata :=
  { id := "idA", name := "A", url := some "uA", parent := some "B",
    resourceType := some "Patient" }

/-- Witness fixture for C3: record B with parent A. -/
def mBC3 : Metadata := { id := "idB", name := "B", url := some "uB", parent := some "A" }

/-- Witness fixture for C3: the tank holding both records. -/
def tC3 : FSHTank :=
  { emptyTank with
    fishForMetadata := fun item _ =>
      if item == "A" then some mAC3 else if item == "B" then some mBC3 else none
    fishForMetadatas := fun item _ => if item == "A" then [mAC3] else [] }

/-- Witness for claim C3 at a concrete A→B→A chain. -/
theorem c3_witness :
    fishForMetadataFuel ⟨some tC3, some emptyFhir, some (emptyPkg "http://c3")⟩ 2 "A" [] =
      .ok (some mAC3,
        [⟨"Circular dependency detected on parent relationships: A < B < A", none⟩]) ∧
    fishForMetadatasFuel ⟨some tC3, some emptyFhir, some (emptyPkg "http://c3")⟩ 2 "A" [] =
      .ok ([mAC3],
        [⟨"Circular dependency detected on parent relationships: A < B < A", none⟩]) :=
  c3_cycle_diagnostic tC3 emptyFhir (emptyPkg "http://c3") mAC3 mBC3 [] 2
    (by decide) rfl rfl rfl rfl rfl rfl rfl rfl (by decide) (by decide) rfl rfl rfl rfl rfl
    (by decide) rfl rfl rfl rfl rfl rfl rfl

/-- Claim C4: for a tank-origin record A with parent chain A→B→C where A and
B have no `sdType` and C has a known one, `fishForMetadata(A)` returns A's
metadata with `sdType` equal to C's `sdType` and no diagnostics.  Each parent
identifier is alias-resolved (B is reached through the alias "Balias") and
looked up in priority order package → tank → FHIR, taking the first match
(B is found in the package although the tank also has a record named "B";
C is found in the FHIR definitions). -/
theorem c4_sdtype_derivation (t : FSHTank) (f : FHIRDefinitions) (p : Package)
    (mA mB mC mDecoy : Metadata) (tname : String) (types : List FType) (fuel : Nat)
    (hfuel : 2 ≤ fuel)
    (hraA : t.resolveAlias "A" = none)
    (hfast : f.fishForPredefinedResourceMetadata "A" types = none)
    (hpA : p.fishForMetadata "A" types = none)
    (htA : t.fishForMetadata "A" types = some mA)
    (hA1 : mA.sdType = none) (hA2 : mA.parent = some "Balias")
    (hA3 : isFalsy mA.resourceType = false) (hA4 : isFalsy mA.url = false)
    (hraB : t.resolveAlias "Balias" = some "B")
    (hpB : p.fishForMetadata "B" types = some mB)
    (hdecoy : t.fishForMetadata "B" types = some mDecoy)
    (hne1 : (mA.url == mB.url) = false)
    (hB1 : mB.sdType = none) (hB2 : mB.parent = some "C")
    (hraC : t.resolveAlias "C" = none)
    (hpC : p.fishForMetadata "C" types = none)
    (htC : t.fishForMetadata "C" types = none)
    (hfC : f.fishForMetadata "C" types = some mC)
    (hne2 : (mA.url == mC.url) = false) (hne3 : (mB.url == mC.url) = false)
    (hC1 : mC.sdType = some tname) :
    fishForMetadataFuel ⟨some t, some f, some p⟩ fuel "A" types =
      .ok (some { mA with sdType := some tname }, []) := by
  obtain ⟨k, rfl⟩ : ∃ k, fuel = k + 2 := ⟨fuel - 2, by omega⟩
  have hwalk : findSdTypeFuel ⟨some t, some f, some p⟩ (k + 2) mA types
      [FishableEntry.pkg p, FishableEntry.tank t, FishableEntry.fhir f] =
      .ok (some tname, []) := by
    unfold findSdTypeFuel
    rw [hA1, hA2]
    simp [findSdTypeLoop, findParent, FishableEntry.fishForMetadata,
      hraB, hpB, hne1, hB1, hB2, hraC, hpC, htC, hfC, hne2, hne3, hC1]
  have hfix : ∀ rf : RecFish,
      fixMetadataGo ⟨some t, some f, some p⟩ (k + 2) rf mA "A" types (FishableEntry.tank t)
        [FishableEntry.pkg p, FishableEntry.tank t, FishableEntry.fhir f] =
      .ok ({ mA with sdType := some tname }, []) := by
    intro rf
    unfold fixMetadataGo
    rw [hwalk]
    simp [hA3, synthesizeUrl, hA4]
  rw [fishForMetadataFuel_eq]
  unfold fishMetaBody
  simp [MasterFisher.resolveItem, MasterFisher.fishables, hraA, hfast, fishableLoopGo,
    FishableEntry.fishForMetadata, hpA, htA,
    hfix (recFishOf ⟨some t, some f, some p⟩ (k + 2))]

/-- Witness fixture for C4: record A (tank), parent alias "Balias". -/
def mAC4 : Metadata :=
  { id := "A", name := "A", url := some "uA", parent := some "Balias",
    resourceType := some "Patient" }

/-- Witness fixture for C4: record B (package), parent "C". -/
def mBC4 : Metadata := { id := "B", name := "B", url := some "uB", parent := some "C" }

/-- Witness fixture for C4: the tank's decoy record also matching "B". -/
def mDecoyC4 : Metadata :=
  { id := "B2", name := "B", url := some "uB2", sdType := some "Decoy" }

/-- Witness fixture for C4: record C (FHIR definitions) with known sdType. -/
def mCC4 : Metadata :=
  { id := "C", name := "C", url := some "uC", sdType := some "DomainResource" }

/-- Witness fixture for C4: the tank. -/
def tC4 : FSHTank :=
  { emptyTank with
    resolveAlias := fun s => if s == "Balias" then some "B" else none
    fishForMetadata := fun item _ =>
      if item == "A" then some mAC4 else if item == "B" then some mDecoyC4 else none }

/-- Witness fixture for C4: the package holding B. -/
def pC4 : Package :=
  { emptyPkg "http://c4" with
    fishForMetadata := fun item _ => if item == "B" then some mBC4 else none }

/-- Witness fixture for C4: the FHIR definitions holding C. -/
def fC4 : FHIRDefinitions :=
  { emptyFhir with
    fishForMetadata := fun item _ => if item == "C" then some mCC4 else none }

/-- Witness for claim C4 at a concrete A→B→C chain. -/
theorem c4_witness :
    fishForMetadataFuel ⟨some tC4, some fC4, some pC4⟩ 2 "A" [] =
      .ok (some { mAC4 with sdType := some "DomainResource" }, []) :=
  c4_sdtype_derivation tC4 fC4 pC4 mAC4 mBC4 mCC4 mDecoyC4 "DomainResource" [] 2
    (by decide) rfl rfl rfl rfl rfl rfl (by decide) (by decide) rfl rfl rfl
    (by decide) rfl rfl rfl rfl rfl rfl (by decide) (by decide) rfl

/-- Membership in the `uniqWith` worker: a record survives iff it occurs in
the remaining input and no equal record has been kept already. -/
theorem mem_uniqWithGo (a : Metadata) : ∀ (l seen : List Metadata),
    a ∈ uniqWithGo seen l ↔ a ∈ l ∧ a ∉ seen
  | [], seen => by simp [uniqWithGo]
  | m :: rest, seen => by
    unfold uniqWithGo
    by_cases h : (seen.any fun x => x == m) = true
    · have hm : m ∈ seen := by
        obtain ⟨x, hx, hxe⟩ := List.any_eq_true.mp h
        exact (beq_iff_eq.mp hxe) ▸ hx
      rw [if_pos h, mem_uniqWithGo a rest seen]
      constructor
      · rintro ⟨h1, h2⟩
        exact ⟨List.mem_cons_of_mem m h1, h2⟩
      · rintro ⟨h1, h2⟩
        rcases List.mem_cons.mp h1 with rfl | h1
        · exact absurd hm h2
        · exact ⟨h1, h2⟩
    · rw [if_neg h, List.mem_cons, mem_uniqWithGo a rest (seen ++ [m])]
      have hm : m ∉ seen := by
        intro hmem
        exact h (List.any_eq_true.mpr ⟨m, hmem, beq_self_eq_true m⟩)
      constructor
      · rintro (rfl | ⟨h1, h2⟩)
        · exact ⟨List.mem_cons_self a rest, hm⟩
        · exact ⟨List.mem_cons_of_mem m h1,
            fun hs => h2 (List.mem_append_left [m] hs)⟩
      · rintro ⟨h1, h2⟩
        rcases List.mem_cons.mp h1 with rfl | h1
        · exact Or.inl rfl
        · by_cases ham : a = m
          · exact Or.inl ham
          · refine Or.inr ⟨h1, fun hs => ?_⟩
            rcases List.mem_append.mp hs with hs | hs
            · exact h2 hs
            · exact ham (List.mem_singleton.mp hs)

/-- The `uniqWith` worker never keeps two equal records. -/
theorem uniqWithGo_nodup : ∀ (l seen : List Metadata), (uniqWithGo seen l).Nodup
  | [], seen => by simp [uniqWithGo]
  | m :: rest, seen => by
    unfold uniqWithGo
    by_cases h : (seen.any fun x => x == m) = true
    · rw [if_pos h]
      exact uniqWithGo_nodup rest seen
    · rw [if_neg h]
      refine List.nodup_cons.mpr ⟨?_, uniqWithGo_nodup rest (seen ++ [m])⟩
      intro hmem
      exact ((mem_uniqWithGo m rest (seen ++ [m])).mp hmem).2
        (List.mem_append_right seen (List.mem_singleton.mpr rfl))

/-- The `uniqWith` worker lists surviving records in increasing order of
their first occurrence in the input. -/
theorem uniqWithGo_pairwise : ∀ (l seen : List Metadata),
    (uniqWithGo seen l).Pairwise fun a b => l.indexOf a < l.indexOf b
  | [], seen => by simp [uniqWithGo]
  | m :: rest, seen => by
    unfold uniqWithGo
    by_cases h : (seen.any fun x => x == m) = true
    · rw [if_pos h]
      have hm : m ∈ seen := by
        obtain ⟨x, hx, hxe⟩ := List.any_eq_true.mp h
        exact (beq_iff_eq.mp hxe) ▸ hx
      refine List.Pairwise.imp_of_mem ?_ (uniqWithGo_pairwise rest seen)
      intro a b ha hb hlt
      have haseen := (mem_uniqWithGo a rest seen).mp ha
      have hbseen := (mem_uniqWithGo b rest seen).mp hb
      have ham : m ≠ a := fun e => haseen.2 (e ▸ hm)
      have hbm : m ≠ b := fun e => hbseen.2 (e ▸ hm)
      rw [List.indexOf_cons_ne rest ham, List.indexOf_cons_ne rest hbm]
      exact Nat.succ_lt_succ hlt
    · rw [if_neg h]
      refine List.pairwise_cons.mpr ⟨?_, ?_⟩
      · intro b hb
        have hbmem := (mem_uniqWithGo b rest (seen ++ [m])).mp hb
        have hbm : m ≠ b := fun e =>
          hbmem.2 (List.mem_append_right seen (List.mem_singleton.mpr e.symm))
        rw [List.indexOf_cons_self, List.indexOf_cons_ne rest hbm]
        exact Nat.succ_pos _
      · refine List.Pairwise.imp_of_mem ?_ (uniqWithGo_pairwise rest (seen ++ [m]))
        intro a b ha hb hlt
        have haseen := (mem_uniqWithGo a rest (seen ++ [m])).mp ha
        have hbseen := (mem_uniqWithGo b rest (seen ++ [m])).mp hb
        have ham : m ≠ a := fun e =>
          haseen.2 (List.mem_append_right seen (List.mem_singleton.mpr e.symm))
        have hbm : m ≠ b := fun e =>
          hbseen.2 (List.mem_append_right seen (List.mem_singleton.mpr e.symm))
        rw [List.indexOf_cons_ne rest ham, List.indexOf_cons_ne rest hbm]
        exact Nat.succ_lt_succ hlt

/-- Claim C6: the multi-result query returns no two structurally equal
records: its output is the gathered sequence deduplicated by full structural
equality, so it is duplicate-free, has exactly the gathered records as
members, and lists the survivors in first-occurrence order of the gathered
sequence. -/
theorem c6_dedup (mf : MasterFisher) (fuel : Nat) (item : String) (types : List FType)
    (ms gs : List Metadata) (logs logs2 : List LogEntry)
    (h1 : fishForMetadatasFuel mf fuel item types = .ok (ms, logs))
    (h2 : gatherMetadatasFuel mf fuel item types = .ok (gs, logs2)) :
    ms.Nodup ∧ (∀ m, m ∈ ms ↔ m ∈ gs) ∧
    ms.Pairwise (fun a b => gs.indexOf a < gs.indexOf b) := by
  unfold fishForMetadatasFuel at h1
  rw [h2] at h1
  cases h1
  refine ⟨uniqWithGo_nodup gs [], fun m => ?_, uniqWithGo_pairwise gs []⟩
  rw [uniqWith, mem_uniqWithGo m gs []]
  simp

/-- Witness fixture for C6: the record reachable both from the fast path and
from the full search of the FHIR definitions. -/
def mC6 : Metadata := { id := "X", name := "X", url := some "u" }

/-- Witness fixture for C6: the FHIR definitions producing the duplicate. -/
def fhirC6 : FHIRDefinitions :=
  { emptyFhir with
    fishForPredefinedResourceMetadatas := fun item _ => if item == "X" then [mC6] else []
    fishForMetadatas := fun item _ => if item == "X" then [mC6] else [] }

/-- Witness fixture for C6: the master fisher. -/
def mfC6 : MasterFisher := { tank := none, fhir := some fhirC6, pkg := none }

/-- Witness for claim C6 at a concrete input whose gathered sequence contains
a duplicate. -/
theorem c6_witness :
    ([mC6].Nodup ∧ (∀ m, m ∈ [mC6] ↔ m ∈ [mC6, mC6]) ∧
      [mC6].Pairwise fun a b => [mC6, mC6].indexOf a < [mC6, mC6].indexOf b) :=
  c6_dedup mfC6 0 "X" [] [mC6] [mC6, mC6] [] [] rfl rfl

end MasterFisherSpec
